import Mathlib

/-!
Verification development for the model-conversions repository (crates
`safetensors` and `conversion-wizard`).

The Rust sources are shallowly embedded below:
* bytes are natural numbers (every byte value produced is < 256);
* byte strings (tensor names, dtype tags, JSON object keys) are lists of bytes;
* `serde_json::Value` is the inductive `Json`; the streaming prefix parse done
  by `serde_json::Deserializer` + `SliceRead` is modelled by `jsonParse`, and
  compact serialization (`serde_json::to_vec`) by `jsonSerialize`.  The model
  covers the JSON fragment this program reads and writes: objects, arrays,
  strings with escapes, integers, booleans and null (no float forms);
* Rust `HashMap` / `serde_json::Map` values are association lists; map
  iteration is list order, and `insert` replaces an existing key in place;
* fallible Rust functions return `Option` or `Except`;
* the external ggml quantization kernels (out of scope per the spec) are a
  function parameter `quantize`, and the external `safetensors` crate types
  `Dtype` / `Dtype::size` are reproduced as the closed enum used by
  `conversion-wizard/src/util.rs`.
-/

/-! ### Byte and integer utilities -/

/-- Decimal digits of a natural number, most significant first, with explicit
fuel so the definition is structural and kernel-reducible. -/
def natDecimalAux : Nat → Nat → List Nat
  | 0, _ => []
  | f + 1, n => if n < 10 then [48 + n] else natDecimalAux f (n / 10) ++ [48 + n % 10]

/-- ASCII decimal representation of a natural number. -/
def natDecimal (n : Nat) : List Nat := natDecimalAux (n + 1) n

/-- `u64::to_le_bytes` of the low 64 bits of `n` (a `usize` cast to `u64`). -/
def u64le (n : Nat) : List Nat :=
  [n % 256, n / 256 % 256, n / 65536 % 256, n / 16777216 % 256,
   n / 4294967296 % 256, n / 1099511627776 % 256, n / 281474976710656 % 256,
   n / 72057594037927936 % 256]

/-- `u64::from_le_bytes`: little-endian byte list to a natural number. -/
def fromLe : List Nat → Nat
  | [] => 0
  | b :: rest => b + 256 * fromLe rest

/-- `next_multiple_of` from `conversion-wizard/src/main.rs` (lines 350-355). -/
def next_multiple_of (lhs multiple : Nat) : Nat :=
  match lhs % multiple with
  | 0 => lhs
  | r => lhs + (multiple - r)

/-! ### The JSON model -/

/-- `serde_json::Value`, with object entries as an association list so that the
iteration done by `load_tensors` is explicit.  A `serde_json::Map` never holds
two entries with the same key, and accordingly `jsonParse` collapses duplicate
keys last-wins (via `objFromMembers`): association lists with repeated keys
never arise from parsing — duplicate names exist only in serialized text. -/
inductive Json where
  | null
  | bool (b : Bool)
  | num (n : Int)
  | str (s : List Nat)
  | arr (xs : List Json)
  | obj (kvs : List (List Nat × Json))

/-- Insert into an association-list object the way `serde_json::Map::insert`
does: replace the value of an existing key, otherwise add the entry. -/
def objInsert : List (List Nat × Json) → List Nat → Json → List (List Nat × Json)
  | [], k, v => [(k, v)]
  | (k2, v2) :: rest, k, v =>
    if k2 = k then (k, v) :: rest else (k2, v2) :: objInsert rest k v

/-- `serde_json::Map::get`: first entry with the given key. -/
def objGet : List (List Nat × Json) → List Nat → Option Json
  | [], _ => none
  | (k, v) :: rest, key => if k = key then some v else objGet rest key

/-- Lowercase hex digit byte, as used by the `serde_json` string escaper. -/
def hexDigitLower (d : Nat) : Nat := if d < 10 then 48 + d else 87 + d

/-- `serde_json` string escaping of one byte: quote and backslash are
backslash-escaped, control bytes use the short escapes or `\u00XX`, everything
else is emitted verbatim. -/
def escapeByte (b : Nat) : List Nat :=
  if b = 34 then [92, 34]
  else if b = 92 then [92, 92]
  else if b = 8 then [92, 98]
  else if b = 9 then [92, 116]
  else if b = 10 then [92, 110]
  else if b = 12 then [92, 102]
  else if b = 13 then [92, 114]
  else if b < 32 then [92, 117, 48, 48, hexDigitLower (b / 16), hexDigitLower (b % 16)]
  else [b]

/-- A serialized JSON string: quote, escaped bytes, quote. -/
def serializeStringBytes (s : List Nat) : List Nat :=
  [34] ++ (s.map escapeByte).flatten ++ [34]

mutual

/-- Compact JSON serialization, modelling `serde_json::to_vec`. -/
def jsonSerialize : Json → List Nat
  | .null => [110, 117, 108, 108]
  | .bool true => [116, 114, 117, 101]
  | .bool false => [102, 97, 108, 115, 101]
  | .num n => if n < 0 then 45 :: natDecimal n.natAbs else natDecimal n.natAbs
  | .str s => serializeStringBytes s
  | .arr xs => [91] ++ serializeItems xs ++ [93]
  | .obj kvs => [123] ++ serializeMembers kvs ++ [125]

/-- Comma-separated serialization of array elements. -/
def serializeItems : List Json → List Nat
  | [] => []
  | [x] => jsonSerialize x
  | x :: y :: xs => jsonSerialize x ++ [44] ++ serializeItems (y :: xs)

/-- Comma-separated serialization of object members. -/
def serializeMembers : List (List Nat × Json) → List Nat
  | [] => []
  | [(k, v)] => serializeStringBytes k ++ [58] ++ jsonSerialize v
  | (k, v) :: m :: kvs =>
    serializeStringBytes k ++ [58] ++ jsonSerialize v ++ [44] ++ serializeMembers (m :: kvs)

end

/-- JSON whitespace bytes: space, tab, line feed, carriage return. -/
def isWsByte (b : Nat) : Bool := b = 32 || b = 9 || b = 10 || b = 13

/-- Drop leading JSON whitespace. -/
def skipWs : List Nat → List Nat
  | [] => []
  | b :: rest => if isWsByte b then skipWs rest else b :: rest

/-- ASCII digit test. -/
def isDigitByte (b : Nat) : Bool := 48 ≤ b && b ≤ 57

/-- Value of a hex digit byte, if it is one. -/
def hexVal (b : Nat) : Option Nat :=
  if 48 ≤ b && b ≤ 57 then some (b - 48)
  else if 97 ≤ b && b ≤ 102 then some (b - 87)
  else if 65 ≤ b && b ≤ 70 then some (b - 55)
  else none

/-- UTF-8 encoding of a code point below 0x10000 (the `\uXXXX` range). -/
def utf8Encode (c : Nat) : List Nat :=
  if c < 128 then [c]
  else if c < 2048 then [192 + c / 64, 128 + c % 64]
  else [224 + c / 4096, 128 + c / 64 % 64, 128 + c % 64]

/-- Prepend a byte to the string being accumulated by `parseStringBody`. -/
def consParsed (b : Nat) : Option (List Nat × List Nat) → Option (List Nat × List Nat)
  | some (s, r) => some (b :: s, r)
  | none => none

/-- Prepend several bytes to the string being accumulated by
`parseStringBody`. -/
def prependParsed (bs : List Nat) : Option (List Nat × List Nat) → Option (List Nat × List Nat)
  | some (s, r) => some (bs ++ s, r)
  | none => none

/-- Parse a JSON string body (the opening quote already consumed), returning
the unescaped bytes and the remaining input.  Raw control bytes are rejected
and `\uXXXX` escapes outside the surrogate range are UTF-8 encoded, as in
`serde_json`; surrogate pairs are not modelled. -/
def parseStringBody : Nat → List Nat → Option (List Nat × List Nat)
  | 0, _ => none
  | _ + 1, [] => none
  | fuel + 1, b :: rest =>
    if b = 34 then some ([], rest)
    else if b = 92 then
      match rest with
      | [] => none
      | c :: rest2 =>
        if c = 34 || c = 92 || c = 47 then consParsed c (parseStringBody fuel rest2)
        else if c = 98 then consParsed 8 (parseStringBody fuel rest2)
        else if c = 116 then consParsed 9 (parseStringBody fuel rest2)
        else if c = 110 then consParsed 10 (parseStringBody fuel rest2)
        else if c = 102 then consParsed 12 (parseStringBody fuel rest2)
        else if c = 114 then consParsed 13 (parseStringBody fuel rest2)
        else if c = 117 then
          match rest2 with
          | h1 :: h2 :: h3 :: h4 :: rest3 =>
            match hexVal h1, hexVal h2, hexVal h3, hexVal h4 with
            | some d1, some d2, some d3, some d4 =>
              let cp := d1 * 4096 + d2 * 256 + d3 * 16 + d4
              if 55296 ≤ cp && cp < 57344 then none
              else prependParsed (utf8Encode cp) (parseStringBody fuel rest3)
            | _, _, _, _ => none
          | _ => none
        else none
    else if b < 32 then none
    else consParsed b (parseStringBody fuel rest)

/-- Take a maximal run of decimal digit bytes. -/
def takeDigits : List Nat → List Nat × List Nat
  | [] => ([], [])
  | b :: rest =>
    if isDigitByte b then
      let (ds, r) := takeDigits rest
      (b :: ds, r)
    else ([], b :: rest)

/-- Decimal digit bytes to a natural number. -/
def digitsToNat (ds : List Nat) : Nat := ds.foldl (fun acc d => acc * 10 + (d - 48)) 0

/-- Parse an unsigned JSON integer: a lone `0`, or a nonzero digit followed by
digits.  Leading zeros are rejected as in JSON; a following `.`, `e` or `E`
(float forms, which this program never emits) is not modelled and fails. -/
def parseUnsignedNumber (s : List Nat) : Option (Nat × List Nat) :=
  match s with
  | [] => none
  | b :: rest =>
    if b = 48 then
      match rest with
      | d :: _ =>
        if isDigitByte d || d = 46 || d = 101 || d = 69 then none else some (0, rest)
      | [] => some (0, [])
    else if isDigitByte b then
      let (ds, r) := takeDigits rest
      match r with
      | d :: _ =>
        if d = 46 || d = 101 || d = 69 then none else some (digitsToNat (b :: ds), r)
      | [] => some (digitsToNat (b :: ds), [])
    else none

/-- Parse a JSON integer with optional leading minus. -/
def parseNumber (s : List Nat) : Option (Json × List Nat) :=
  match s with
  | 45 :: rest =>
    match parseUnsignedNumber rest with
    | some (n, r) => some (Json.num (-(n : Int)), r)
    | none => none
  | _ =>
    match parseUnsignedNumber s with
    | some (n, r) => some (Json.num (n : Int), r)
    | none => none

/-- Collapse parsed object members into a `serde_json::Map`: members are
inserted in order, a repeated key replacing the earlier value (last wins). -/
def objFromMembers (kvs : List (List Nat × Json)) : List (List Nat × Json) :=
  kvs.foldl (fun acc p => objInsert acc p.1 p.2) []

mutual

/-- Parse one JSON value from a prefix of the input, returning the value and
the unconsumed remainder (the streaming parse `serde_json` performs through
`SliceRead`; trailing bytes are left alone). -/
def parseValue : Nat → List Nat → Option (Json × List Nat)
  | 0, _ => none
  | fuel + 1, s =>
    match skipWs s with
    | [] => none
    | b :: rest =>
      if b = 110 then
        match rest with
        | 117 :: 108 :: 108 :: r => some (Json.null, r)
        | _ => none
      else if b = 116 then
        match rest with
        | 114 :: 117 :: 101 :: r => some (Json.bool true, r)
        | _ => none
      else if b = 102 then
        match rest with
        | 97 :: 108 :: 115 :: 101 :: r => some (Json.bool false, r)
        | _ => none
      else if b = 34 then
        match parseStringBody fuel rest with
        | some (str, r) => some (Json.str str, r)
        | none => none
      else if b = 91 then
        match skipWs rest with
        | 93 :: r => some (Json.arr [], r)
        | r2 =>
          match parseItems fuel r2 with
          | some (xs, r) => some (Json.arr xs, r)
          | none => none
      else if b = 123 then
        match skipWs rest with
        | 125 :: r => some (Json.obj [], r)
        | r2 =>
          match parseMembers fuel r2 with
          | some (kvs, r) => some (Json.obj (objFromMembers kvs), r)
          | none => none
      else if b = 45 || isDigitByte b then parseNumber (b :: rest)
      else none

/-- Parse the comma-separated elements of a non-empty JSON array, consuming the
closing bracket. -/
def parseItems : Nat → List Nat → Option (List Json × List Nat)
  | 0, _ => none
  | fuel + 1, s =>
    match parseValue fuel s with
    | none => none
    | some (v, r) =>
      match skipWs r with
      | 44 :: r2 =>
        match parseItems fuel r2 with
        | some (vs, r3) => some (v :: vs, r3)
        | none => none
      | 93 :: r2 => some ([v], r2)
      | _ => none

/-- Parse the comma-separated members of a non-empty JSON object, consuming the
closing brace. -/
def parseMembers : Nat → List Nat → Option (List (List Nat × Json) × List Nat)
  | 0, _ => none
  | fuel + 1, s =>
    match skipWs s with
    | 34 :: r =>
      match parseStringBody fuel r with
      | none => none
      | some (k, r2) =>
        match skipWs r2 with
        | 58 :: r3 =>
          match parseValue fuel r3 with
          | none => none
          | some (v, r4) =>
            match skipWs r4 with
            | 44 :: r5 =>
              match parseMembers fuel r5 with
              | some (kvs, r6) => some ((k, v) :: kvs, r6)
              | none => none
            | 125 :: r5 => some ([(k, v)], r5)
            | _ => none
        | _ => none
    | _ => none

end

/-- Parse one JSON value from a prefix of `s`, tolerating trailing bytes.  The
fuel `s.length + 1` dominates the parser's recursion depth on any input it
accepts, since every recursive layer consumes input. -/
def jsonParse (s : List Nat) : Option (Json × List Nat) :=
  parseValue (s.length + 1) s

example : jsonParse [123, 125, 32, 32, 32] = some (Json.obj [], [32, 32, 32]) := rfl

example : jsonParse [123, 125, 0, 0, 0] = some (Json.obj [], [0, 0, 0]) := rfl

example :
    jsonParse (jsonSerialize (Json.obj [([97], Json.arr [Json.num 1, Json.num 20])])) =
      some (Json.obj [([97], Json.arr [Json.num 1, Json.num 20])], []) := rfl

/-! ### The `safetensors` crate of this repository (`src/safetensors/src/lib.rs`) -/

/-- `SafetensorsHeader`: the parsed header value and the offset (from the start
of the file) of the end of the header. -/
structure SafetensorsHeader where
  data : Json
  offset_end_of_header : Nat

/-- `read_header` (lib.rs lines 13-27): read exactly 8 bytes as a little-endian
u64 length, read exactly that many bytes, and parse one JSON value from them,
ignoring trailing data.  A short read or a failed parse is an error (`none`). -/
def read_header (reader : List Nat) : Option SafetensorsHeader :=
  if reader.length < 8 then none
  else
    let header_len := fromLe (reader.take 8)
    let rest := reader.drop 8
    if rest.length < header_len then none
    else
      match jsonParse (rest.take header_len) with
      | some (header, _) => some ⟨header, header_len + 8⟩
      | none => none

/-- `WhereTheSliceStarts` (lib.rs lines 42-47). -/
inductive WhereTheSliceStarts where
  | StartOfFile
  | AfterHeader
deriving DecidableEq

/-- The `why` texts of `LoadTensorError::InvalidHeader`, kept structured (the
source formats them into a string; the payload is the offending tensor). -/
inductive InvalidHeaderWhy where
  | headerNotObject
  | tensorInfoNotObject (tensor : List Nat)
  | noValidDtype (tensor : List Nat)
  | noValidShape (tensor : List Nat)
  | noValidDataOffsets (tensor : List Nat)
deriving DecidableEq

/-- `LoadTensorError` (lib.rs lines 49-60). -/
inductive LoadTensorError where
  | InvalidHeader (why : InvalidHeaderWhy)
  | DuplicateTensorName (name : List Nat)
  | OffsetsOutOfBounds (name : List Nat) (offsets : Nat × Nat)
deriving DecidableEq

/-- `TensorInfo` (lib.rs lines 36-40); `data` holds the bytes of the view. -/
structure TensorInfo where
  dtype : List Nat
  shape : List Nat
  data : List Nat
deriving DecidableEq

/-- `String::deserialize` on a `serde_json::Value`. -/
def deserializeString : Json → Option (List Nat)
  | .str s => some s
  | _ => none

/-- `usize::deserialize` on a `serde_json::Value`: a non-negative integer. -/
def deserializeNat : Json → Option Nat
  | .num n => if n < 0 then none else some n.toNat
  | _ => none

/-- `Vec<usize>::deserialize`: an array of non-negative integers. -/
def deserializeNatList : Json → Option (List Nat)
  | .arr xs => xs.mapM deserializeNat
  | _ => none

/-- `(usize, usize)::deserialize`: an array of exactly two non-negative
integers. -/
def deserializeNatPair : Json → Option (Nat × Nat)
  | .arr [a, b] =>
    match deserializeNat a, deserializeNat b with
    | some x, some y => some (x, y)
    | _, _ => none
  | _ => none

/-- `tensor_name.starts_with("_")` on a byte-string name. -/
def startsUnderscore : List Nat → Bool
  | 95 :: _ => true
  | _ => false

/-- The `global_offset` selection of `load_tensors` (lib.rs lines 67-70). -/
def globalOffset (header : SafetensorsHeader) : WhereTheSliceStarts → Nat
  | .StartOfFile => header.offset_end_of_header
  | .AfterHeader => 0

/-- `slice.get(s..e)`: the bounds-checked subslice `[s, e)` of a byte list. -/
def sliceGet (slice : List Nat) (s e : Nat) : Option (List Nat) :=
  if s ≤ e ∧ e ≤ slice.length then some ((slice.drop s).take (e - s)) else none

/-- Lookup in the result map being accumulated by `load_tensors` (the
`HashMap::insert` presence check). -/
def lookupName : List (List Nat × TensorInfo) → List Nat → Option TensorInfo
  | [], _ => none
  | (k, v) :: rest, key => if k = key then some v else lookupName rest key

/-- `key_dtype` is the byte string "dtype". -/
def key_dtype : List Nat := [100, 116, 121, 112, 101]

/-- `key_shape` is the byte string "shape". -/
def key_shape : List Nat := [115, 104, 97, 112, 101]

/-- `key_data_offsets` is the byte string "data_offsets". -/
def key_data_offsets : List Nat := [100, 97, 116, 97, 95, 111, 102, 102, 115, 101, 116, 115]

/-- `key_offsets` is the byte string "offsets". -/
def key_offsets : List Nat := [111, 102, 102, 115, 101, 116, 115]

/-- `key_metadata` is the byte string "__metadata__". -/
def key_metadata : List Nat := [95, 95, 109, 101, 116, 97, 100, 97, 116, 97, 95, 95]

/-- One iteration of the `load_tensors` loop (lib.rs lines 76-119): skip keys
starting with `_`; otherwise require an object with valid `dtype`, `shape` and
`data_offsets` fields, take the bounds-checked byte view, and insert it,
rejecting a name already present. -/
def loadEntry (slice : List Nat) (go : Nat) (acc : List (List Nat × TensorInfo))
    (tensor_name : List Nat) (tensor_info_raw : Json) :
    Except LoadTensorError (List (List Nat × TensorInfo)) :=
  if startsUnderscore tensor_name then .ok acc
  else
    match tensor_info_raw with
    | .obj tensor_info =>
      match (objGet tensor_info key_dtype).bind deserializeString with
      | none => .error (.InvalidHeader (.noValidDtype tensor_name))
      | some dtype =>
        match (objGet tensor_info key_shape).bind deserializeNatList with
        | none => .error (.InvalidHeader (.noValidShape tensor_name))
        | some shape =>
          match (objGet tensor_info key_data_offsets).bind deserializeNatPair with
          | none => .error (.InvalidHeader (.noValidDataOffsets tensor_name))
          | some data_offsets =>
            match sliceGet slice (data_offsets.1 + go) (data_offsets.2 + go) with
            | none => .error (.OffsetsOutOfBounds tensor_name data_offsets)
            | some data =>
              match lookupName acc tensor_name with
              | some _ => .error (.DuplicateTensorName tensor_name)
              | none => .ok (acc ++ [(tensor_name, ⟨dtype, shape, data⟩)])
    | _ => .error (.InvalidHeader (.tensorInfoNotObject tensor_name))

/-- The `load_tensors` loop over the header object's entries. -/
def loadEntries (slice : List Nat) (go : Nat) :
    List (List Nat × Json) → List (List Nat × TensorInfo) →
    Except LoadTensorError (List (List Nat × TensorInfo))
  | [], acc => .ok acc
  | (n, j) :: rest, acc =>
    match loadEntry slice go acc n j with
    | .error e => .error e
    | .ok acc2 => loadEntries slice go rest acc2

/-- `load_tensors` (lib.rs lines 62-121).  The result is the accumulated
name-to-view map (an association list in insertion order; the source uses a
`HashMap`, whose contents this list determines). -/
def load_tensors (header : SafetensorsHeader) (slice : List Nat)
    (slice_start_where : WhereTheSliceStarts) :
    Except LoadTensorError (List (List Nat × TensorInfo)) :=
  let go := globalOffset header slice_start_where
  match header.data with
  | .obj tensor_map => loadEntries slice go tensor_map []
  | _ => .error (.InvalidHeader .headerNotObject)

example :
    (read_header [5, 0, 0, 0, 0, 0, 0, 0, 123, 125, 32, 32, 32]).map
      (fun h => load_tensors h [] .StartOfFile) = some (.ok []) := rfl

example :
    (read_header [5, 0, 0, 0, 0, 0, 0, 0, 123, 125, 0, 0, 0]).map
      (fun h => load_tensors h [] .StartOfFile) = some (.ok []) := rfl

/-! ### The `conversion-wizard` crate (`src/conversion-wizard/src/main.rs`) -/

/-- `safetensors::Dtype` as used by `util.rs` (the thirteen tags it maps). -/
inductive Dtype where
  | BOOL
  | U8
  | I8
  | I16
  | U16
  | F16
  | BF16
  | I32
  | U32
  | F32
  | F64
  | I64
  | U64
deriving DecidableEq

/-- `dtype_str` (`conversion-wizard/src/util.rs`): the case-exact ASCII tag. -/
def dtype_str : Dtype → List Nat
  | .BOOL => [66, 79, 79, 76]
  | .U8 => [85, 56]
  | .I8 => [73, 56]
  | .I16 => [73, 49, 54]
  | .U16 => [85, 49, 54]
  | .F16 => [70, 49, 54]
  | .BF16 => [66, 70, 49, 54]
  | .I32 => [73, 51, 50]
  | .U32 => [85, 51, 50]
  | .F32 => [70, 51, 50]
  | .F64 => [70, 54, 52]
  | .I64 => [73, 54, 52]
  | .U64 => [85, 54, 52]

/-- Modelled from the external `safetensors` crate: `Dtype::size()`, bytes per
element, used by `do_quantize` as `alignment_and_unit_size`. -/
def Dtype.size : Dtype → Nat
  | .BOOL => 1
  | .U8 => 1
  | .I8 => 1
  | .I16 => 2
  | .U16 => 2
  | .F16 => 2
  | .BF16 => 2
  | .I32 => 4
  | .U32 => 4
  | .F32 => 4
  | .F64 => 8
  | .I64 => 8
  | .U64 => 8

/-- `QuantizeTreatment` (main.rs lines 156-167); `q4_2` is commented out in the
source. -/
inductive QuantizeTreatment where
  | keep
  | q4_0
  | q4_1
  | q5_0
  | q5_1
  | q8_0
deriving DecidableEq

/-- `QuantizeKey` (main.rs lines 143-147): dtype tag plus shape. -/
structure QuantizeKey where
  dtype : List Nat
  shape : List Nat
deriving DecidableEq

/-- `QuantizeInfo` (main.rs lines 149-154). -/
structure QuantizeInfo where
  count : Nat
  treatment : QuantizeTreatment
deriving DecidableEq

/-- `QuantizePlan` (main.rs lines 137-141); both maps are association lists. -/
structure QuantizePlan where
  metadata : Option (List (List Nat × List Nat))
  catalog : List (QuantizeKey × QuantizeInfo)

/-- Lookup in the plan catalog (`plan.catalog.get(&k)`). -/
def lookupCatalog : List (QuantizeKey × QuantizeInfo) → QuantizeKey → Option QuantizeInfo
  | [], _ => none
  | (k, v) :: rest, key => if k = key then some v else lookupCatalog rest key

/-- One iteration of the catalog-building loop of `do_plan` (main.rs lines
176-190): insert `{count: 0, treatment: keep}` if the key is absent, then
increment its count. -/
def bumpKey : List (QuantizeKey × QuantizeInfo) → QuantizeKey → List (QuantizeKey × QuantizeInfo)
  | [], k => [(k, ⟨1, .keep⟩)]
  | (k2, info) :: rest, k =>
    if k2 = k then (k2, ⟨info.count + 1, info.treatment⟩) :: rest
    else (k2, info) :: bumpKey rest k

/-- The catalog `do_plan` builds from the input tensors, given for each tensor
its name, dtype and shape.  Only the dtype and shape enter the key. -/
def do_plan_catalog (tensors : List (List Nat × Dtype × List Nat)) :
    List (QuantizeKey × QuantizeInfo) :=
  tensors.foldl (fun acc t => bumpKey acc ⟨dtype_str t.2.1, t.2.2⟩) []

/-- `TensorPlanerTensor` (main.rs lines 331-334). -/
structure TensorPlanerTensor where
  leading_padding : Nat
  data : List Nat
deriving DecidableEq

/-- `TensorPlaner` (main.rs lines 324-329); `free_offset` is the first free
byte. -/
structure TensorPlaner where
  free_offset : Nat
  tensors : List TensorPlanerTensor
deriving DecidableEq

/-- `TensorPlaner::plan_write` (main.rs lines 337-347), returning the updated
planner (the method mutates `self`) together with `(start, end)`. -/
def TensorPlaner.plan_write (p : TensorPlaner) (alignment : Nat) (data : List Nat) :
    TensorPlaner × (Nat × Nat) :=
  let start := next_multiple_of p.free_offset alignment
  let padding := start - p.free_offset
  let stop := start + data.length
  (⟨stop, p.tensors ++ [⟨padding, data⟩]⟩, (start, stop))

/-- The fatal errors of `do_quantize` (`anyhow::bail!` / `ensure!` /
`with_context`), kept structured. -/
inductive ConvError where
  | planMiss (k : QuantizeKey)
  | onlyF32
  | notMultipleOfUnit
  | noNonUnitDim
  | intOverflow
deriving DecidableEq

/-- The external ggml quantization capability (spec section 6): for a treatment
it maps (source bytes, element count, blocking-dimension size) to the
transformed bytes.  `do_quantize` is parametric in it. -/
abbrev QuantKernel := QuantizeTreatment → List Nat → Nat → Nat → List Nat

/-- The shared body of the five quantizing arms of `do_quantize` (main.rs lines
238-298): require `F32` input, a byte length divisible by the unit size, a
dimension other than 1, and in-range `c_int` casts; then call the external
kernel and attach the arm's dtype tag and alignment. -/
def quantizeArm (quantize : QuantKernel) (t : QuantizeTreatment) (outDtype : List Nat)
    (outAlign : Nat) (dtype : Dtype) (shape : List Nat) (data : List Nat) :
    Except ConvError (List Nat × Nat × List Nat) :=
  let alignment_and_unit_size := dtype.size
  if dtype = .F32 then
    let n_elem := data.length / alignment_and_unit_size
    if data.length % alignment_and_unit_size = 0 then
      match shape.find? (fun x => x != 1) with
      | none => .error .noNonUnitDim
      | some ne_0 =>
        if n_elem < 2147483648 ∧ ne_0 < 2147483648 then
          .ok (outDtype, outAlign, quantize t data n_elem ne_0)
        else .error .intOverflow
    else .error .notMultipleOfUnit
  else .error .onlyF32

/-- The treatment dispatch of `do_quantize` (main.rs lines 232-300): `keep`
passes the tensor through with its own dtype tag and unit-size alignment; each
quantizing treatment uses its fixed dtype tag and alignment constant from the
source. -/
def dispatch (quantize : QuantKernel) (treatment : QuantizeTreatment) (dtype : Dtype)
    (shape : List Nat) (data : List Nat) : Except ConvError (List Nat × Nat × List Nat) :=
  match treatment with
  | .keep => .ok (dtype_str dtype, dtype.size, data)
  | .q4_0 => quantizeArm quantize .q4_0 [113, 52, 95, 48] 4 dtype shape data
  | .q4_1 => quantizeArm quantize .q4_1 [113, 52, 95, 49] 4 dtype shape data
  | .q8_0 => quantizeArm quantize .q8_0 [113, 56, 95, 48] 4 dtype shape data
  | .q5_0 => quantizeArm quantize .q5_0 [113, 53, 95, 48] 2 dtype shape data
  | .q5_1 => quantizeArm quantize .q5_1 [113, 53, 95, 49] 2 dtype shape data

/-- An input tensor of `do_quantize`, as obtained from the input container. -/
structure InputTensor where
  name : List Nat
  dtype : Dtype
  shape : List Nat
  data : List Nat
deriving DecidableEq

/-- The header entry `do_quantize` inserts for a tensor (main.rs line 304):
`json!({ "dtype": dtype, "shape": shape, "offsets": offsets })` — note the key
is `"offsets"`. -/
def tensorHeaderJson (dtype : List Nat) (shape : List Nat) (offsets : Nat × Nat) : Json :=
  Json.obj
    [(key_dtype, Json.str dtype),
     (key_shape, Json.arr (shape.map (fun n => Json.num (Int.ofNat n)))),
     (key_offsets, Json.arr [Json.num (Int.ofNat offsets.1), Json.num (Int.ofNat offsets.2)])]

/-- The mutable state of the `do_quantize` loop: the output header map and the
write planner. -/
structure QuantizeState where
  out : List (List Nat × Json)
  write_plan : TensorPlaner

/-- One iteration of the `do_quantize` tensor loop (main.rs lines 218-306):
look the tensor's shape class up in the plan (failing fatally if absent),
dispatch the treatment, plan the write, and insert the header entry. -/
def quantizeStep (quantize : QuantKernel) (plan : QuantizePlan) (st : QuantizeState)
    (t : InputTensor) : Except ConvError QuantizeState :=
  let k : QuantizeKey := ⟨dtype_str t.dtype, t.shape⟩
  match lookupCatalog plan.catalog k with
  | none => .error (.planMiss k)
  | some info =>
    match dispatch quantize info.treatment t.dtype t.shape t.data with
    | .error e => .error e
    | .ok (dtype, alignment, data) =>
      let (planner, offsets) := st.write_plan.plan_write alignment data
      .ok ⟨objInsert st.out t.name (tensorHeaderJson dtype t.shape offsets), planner⟩

/-- The `do_quantize` tensor loop folded over the input tensors. -/
def quantizeFold (quantize : QuantKernel) (plan : QuantizePlan) :
    QuantizeState → List InputTensor → Except ConvError QuantizeState
  | st, [] => .ok st
  | st, t :: ts =>
    match quantizeStep quantize plan st t with
    | .error e => .error e
    | .ok st2 => quantizeFold quantize plan st2 ts

/-- The serde value of the plan's metadata map (string-to-string). -/
def metadataJson (md : List (List Nat × List Nat)) : Json :=
  Json.obj (md.map (fun p => (p.1, Json.str p.2)))

/-- The initial output header map of `do_quantize` (main.rs lines 211-214):
empty, or holding only `__metadata__` when the plan carries metadata. -/
def initialOut (plan : QuantizePlan) : List (List Nat × Json) :=
  match plan.metadata with
  | some md => [(key_metadata, metadataJson md)]
  | none => []

/-- The container serializer of `do_quantize` (main.rs lines 308-319): write
the header length rounded up to a multiple of 8 as a little-endian u64, the
JSON header bytes, zero padding up to that length, then every planner entry's
leading padding (zeros) followed by its data. -/
def serializeContainer (header : List Nat) (tensors : List TensorPlanerTensor) : List Nat :=
  let header_len := next_multiple_of header.length 8
  let padding := header_len - header.length
  u64le header_len ++ header ++ List.replicate padding 0
    ++ (tensors.map (fun a => List.replicate a.leading_padding 0 ++ a.data)).flatten

/-- `do_quantize` (main.rs lines 204-322) without the file I/O: from the plan
and the input tensors to the output container's byte stream. -/
def do_quantize (quantize : QuantKernel) (plan : QuantizePlan)
    (tensors : List InputTensor) : Except ConvError (List Nat) :=
  match quantizeFold quantize plan ⟨initialOut plan, ⟨0, []⟩⟩ tensors with
  | .error e => .error e
  | .ok st => .ok (serializeContainer (jsonSerialize (Json.obj st.out)) st.write_plan.tensors)

/-- Re-parse a serialized container with this repository's Header Codec and
Tensor View Extractor, with convention "start of file". -/
def reparse (stream : List Nat) :
    Option (Except LoadTensorError (List (List Nat × TensorInfo))) :=
  match read_header stream with
  | some h => some (load_tensors h stream .StartOfFile)
  | none => none

/-! ### Helper definitions for the stated properties -/

/-- Whether an `Except` result is a success. -/
def exceptIsOk {ε α : Type} : Except ε α → Bool
  | .ok _ => true
  | .error _ => false

/-- Run a sequence of `plan_write` calls, collecting the returned offset
pairs. -/
def runPlanner : TensorPlaner → List (Nat × List Nat) → TensorPlaner × List (Nat × Nat)
  | p, [] => (p, [])
  | p, (a, d) :: rest =>
    let (p2, r) := p.plan_write a d
    let (pf, rs) := runPlanner p2 rest
    (pf, r :: rs)

/-- The names in a `load_tensors` result (empty for an error). -/
def namesOfResult : Except LoadTensorError (List (List Nat × TensorInfo)) → List (List Nat)
  | .ok m => m.map Prod.fst
  | .error _ => []

/-- The shape-class key of one of `do_plan`'s input tensors. -/
def keyOfPlanInput (t : List Nat × Dtype × List Nat) : QuantizeKey :=
  ⟨dtype_str t.2.1, t.2.2⟩

/-- The shape-class key `do_quantize` looks up for an input tensor. -/
def keyOfInput (t : InputTensor) : QuantizeKey :=
  ⟨dtype_str t.dtype, t.shape⟩

/-! ### Arithmetic helper lemmas -/

theorem next_multiple_of_eq (n a : Nat) :
    next_multiple_of n a = if n % a = 0 then n else n + (a - n % a) := by
  rcases h : n % a with _ | r
  · simp [next_multiple_of, h]
  · simp [next_multiple_of, h]

theorem next_multiple_of_ge (n a : Nat) : n ≤ next_multiple_of n a := by
  rw [next_multiple_of_eq]
  split
  · exact Nat.le_refl n
  · exact Nat.le_add_right n _

theorem next_multiple_of_mod (n a : Nat) (h : 0 < a) : next_multiple_of n a % a = 0 := by
  rw [next_multiple_of_eq]
  split
  · assumption
  · have hlt : n % a < a := Nat.mod_lt n h
    have hd := Nat.div_add_mod n a
    have he : n + (a - n % a) = a * (n / a + 1) := by
      rw [Nat.mul_succ]
      omega
    rw [he, Nat.mul_mod_right]

theorem next_multiple_of_lt (n a : Nat) (h : 0 < a) : next_multiple_of n a < n + a := by
  rw [next_multiple_of_eq]
  split
  · omega
  · have hlt : n % a < a := Nat.mod_lt n h
    omega

theorem fromLe_u64le (n : Nat) : fromLe (u64le n) = n % 18446744073709551616 := by
  simp [u64le, fromLe]
  omega

theorem u64le_length (n : Nat) : (u64le n).length = 8 := rfl

theorem take_length_append {α : Type} (l1 l2 : List α) (n : Nat) (h : l1.length = n) :
    (l1 ++ l2).take n = l1 := by
  subst h
  exact List.take_left _ _

theorem drop_length_append {α : Type} (l1 l2 : List α) (n : Nat) (h : l1.length = n) :
    (l1 ++ l2).drop n = l2 := by
  subst h
  exact List.drop_left _ _

/-! ### C5: the Header Codec contract -/

/-- C5: for a stream whose first 8 bytes encode a little-endian u64 length `L`
followed by at least `L` bytes whose region begins with a valid JSON value,
`read_header` returns that value with `offset_end_of_header = 8 + L`,
tolerating arbitrary trailing bytes inside the `L`-byte region; it fails when
the 8 bytes or the `L` following bytes cannot be read, or when the region does
not begin with a valid JSON value. -/
theorem read_header_contract :
    (∀ (L : Nat) (body : List Nat) (v : Json) (junk : List Nat),
        L < 18446744073709551616 →
        L ≤ body.length →
        jsonParse (body.take L) = some (v, junk) →
        read_header (u64le L ++ body) = some ⟨v, L + 8⟩) ∧
    (∀ stream : List Nat, stream.length < 8 → read_header stream = none) ∧
    (∀ stream : List Nat, 8 ≤ stream.length →
        (stream.drop 8).length < fromLe (stream.take 8) → read_header stream = none) ∧
    (∀ stream : List Nat, 8 ≤ stream.length →
        fromLe (stream.take 8) ≤ (stream.drop 8).length →
        jsonParse ((stream.drop 8).take (fromLe (stream.take 8))) = none →
        read_header stream = none) := by
  refine ⟨?_, ?_, ?_, ?_⟩
  · intro L body v junk hL hlen hparse
    have hTake : (u64le L ++ body).take 8 = u64le L := by
      rw [show (8 : Nat) = (u64le L).length from rfl]
      exact List.take_left _ _
    have hDrop : (u64le L ++ body).drop 8 = body := by
      rw [show (8 : Nat) = (u64le L).length from rfl]
      exact List.drop_left _ _
    have hlen8 : ¬ (u64le L ++ body).length < 8 := by
      rw [List.length_append, u64le_length]
      omega
    simp only [read_header, hTake, hDrop, fromLe_u64le, Nat.mod_eq_of_lt hL]
    rw [if_neg hlen8, if_neg (by omega), hparse]
  · intro stream h
    simp [read_header, h]
  · intro stream h8 hshort
    simp only [read_header]
    rw [if_neg (by omega), if_pos hshort]
  · intro stream h8 hlen hbad
    simp only [read_header]
    rw [if_neg (by omega), if_neg (by omega), hbad]

theorem read_header_contract_witness :
    (5 : Nat) < 18446744073709551616 ∧
    (5 : Nat) ≤ [123, 125, 32, 32, 32].length ∧
    jsonParse (([123, 125, 32, 32, 32] : List Nat).take 5) =
      some (Json.obj [], [32, 32, 32]) ∧
    read_header (u64le 5 ++ [123, 125, 32, 32, 32]) = some ⟨Json.obj [], 5 + 8⟩ :=
  ⟨by decide, by decide, rfl,
    read_header_contract.1 5 [123, 125, 32, 32, 32] (Json.obj []) [32, 32, 32]
      (by decide) (by decide) rfl⟩

/-! ### C8: header length prefix and zero padding -/

/-- C8: the serialized container's header length `L` is the smallest multiple
of 8 that is at least the JSON header's byte length (so `L % 8 = 0` and
`json_len ≤ L < json_len + 8`), the 8-byte prefix is `L` in little-endian, and
the `L - json_len` bytes between the JSON's end and offset `8 + L` are all
zero. -/
theorem serializeContainer_header_padding (header : List Nat) (ts : List TensorPlanerTensor) :
    next_multiple_of header.length 8 % 8 = 0 ∧
    header.length ≤ next_multiple_of header.length 8 ∧
    next_multiple_of header.length 8 < header.length + 8 ∧
    (serializeContainer header ts).take 8 = u64le (next_multiple_of header.length 8) ∧
    ((serializeContainer header ts).drop (8 + header.length)).take
        (next_multiple_of header.length 8 - header.length) =
      List.replicate (next_multiple_of header.length 8 - header.length) 0 := by
  refine ⟨next_multiple_of_mod _ 8 (by decide), next_multiple_of_ge _ _,
    next_multiple_of_lt _ 8 (by decide), ?_, ?_⟩
  · show (u64le (next_multiple_of header.length 8) ++ _).take 8 = _
    rw [show (8 : Nat) = (u64le (next_multiple_of header.length 8)).length from rfl]
    exact List.take_left _ _
  · have hassoc : serializeContainer header ts =
        (u64le (next_multiple_of header.length 8) ++ header) ++
          (List.replicate (next_multiple_of header.length 8 - header.length) 0 ++
            ((ts.map (fun a => List.replicate a.leading_padding 0 ++ a.data)).flatten)) := by
      simp [serializeContainer, List.append_assoc]
    rw [hassoc]
    rw [drop_length_append _ _ _ (by rw [List.length_append, u64le_length])]
    exact take_length_append _ _ _ (List.length_replicate _ _)

/-! ### C2: the Write Planner contract -/

theorem runPlanner_nil (p : TensorPlaner) : runPlanner p [] = (p, []) := rfl

theorem runPlanner_starts_ge (calls : List (Nat × List Nat)) :
    ∀ (p : TensorPlaner) (r : Nat × Nat), r ∈ (runPlanner p calls).2 →
      p.free_offset ≤ r.1 ∧ r.1 ≤ r.2 := by
  induction calls with
  | nil =>
    intro p r hr
    simp [runPlanner] at hr
  | cons c rest ih =>
    intro p r hr
    obtain ⟨a, d⟩ := c
    simp only [runPlanner, List.mem_cons] at hr
    rcases hr with h | h
    · subst h
      exact ⟨next_multiple_of_ge _ _, Nat.le_add_right _ _⟩
    · have hrest := ih (p.plan_write a d).1 r h
      refine ⟨?_, hrest.2⟩
      calc p.free_offset ≤ (p.plan_write a d).2.1 := next_multiple_of_ge _ _
        _ ≤ (p.plan_write a d).1.free_offset := Nat.le_add_right _ _
        _ ≤ r.1 := hrest.1

theorem runPlanner_pairwise (calls : List (Nat × List Nat)) :
    ∀ p : TensorPlaner,
      List.Pairwise (fun r r2 => r.2 ≤ r2.1) (runPlanner p calls).2 := by
  induction calls with
  | nil =>
    intro p
    simp [runPlanner]
  | cons c rest ih =>
    intro p
    obtain ⟨a, d⟩ := c
    simp only [runPlanner]
    constructor
    · intro r hr
      exact (runPlanner_starts_ge rest (p.plan_write a d).1 r hr).1
    · exact ih _

/-- C2: each `plan_write(alignment, data)` call with positive alignment returns
`(start, end)` with `start` the smallest multiple of the alignment at least the
planner's `free_offset` (so `start % alignment = 0` and
`free_offset ≤ start < free_offset + alignment`), `end = start + len(data)`,
the updated `free_offset` equal to `end`, and the recorded entry's
`leading_padding` equal to `start - free_offset`; consequently in a sequence of
calls each start is at least the previous end and no two returned byte ranges
overlap. -/
theorem plan_write_contract :
    (∀ (p : TensorPlaner) (a : Nat) (d : List Nat), 0 < a →
      (p.plan_write a d).2.1 % a = 0 ∧
      p.free_offset ≤ (p.plan_write a d).2.1 ∧
      (p.plan_write a d).2.1 < p.free_offset + a ∧
      (p.plan_write a d).2.2 = (p.plan_write a d).2.1 + d.length ∧
      (p.plan_write a d).1.free_offset = (p.plan_write a d).2.2 ∧
      (p.plan_write a d).1.tensors =
        p.tensors ++ [⟨(p.plan_write a d).2.1 - p.free_offset, d⟩]) ∧
    (∀ calls : List (Nat × List Nat), (∀ c ∈ calls, 0 < c.1) →
      (∀ r ∈ (runPlanner ⟨0, []⟩ calls).2, r.1 ≤ r.2) ∧
      List.Chain' (fun r r2 => r.2 ≤ r2.1) (runPlanner ⟨0, []⟩ calls).2 ∧
      List.Pairwise (fun r r2 => r.2 ≤ r2.1) (runPlanner ⟨0, []⟩ calls).2) := by
  constructor
  · intro p a d ha
    exact ⟨next_multiple_of_mod _ _ ha, next_multiple_of_ge _ _,
      next_multiple_of_lt _ _ ha, rfl, rfl, rfl⟩
  · intro calls _
    exact ⟨fun r hr => (runPlanner_starts_ge calls _ r hr).2,
      (runPlanner_pairwise calls _).chain', runPlanner_pairwise calls _⟩

theorem plan_write_contract_witness :
    ((0 : Nat) < 4 ∧
      (((⟨3, []⟩ : TensorPlaner).plan_write 4 [9, 9]).2.1 % 4 = 0 ∧
        (⟨3, []⟩ : TensorPlaner).free_offset ≤
          ((⟨3, []⟩ : TensorPlaner).plan_write 4 [9, 9]).2.1 ∧
        ((⟨3, []⟩ : TensorPlaner).plan_write 4 [9, 9]).2.1 <
          (⟨3, []⟩ : TensorPlaner).free_offset + 4 ∧
        ((⟨3, []⟩ : TensorPlaner).plan_write 4 [9, 9]).2.2 =
          ((⟨3, []⟩ : TensorPlaner).plan_write 4 [9, 9]).2.1 + [9, 9].length ∧
        ((⟨3, []⟩ : TensorPlaner).plan_write 4 [9, 9]).1.free_offset =
          ((⟨3, []⟩ : TensorPlaner).plan_write 4 [9, 9]).2.2 ∧
        ((⟨3, []⟩ : TensorPlaner).plan_write 4 [9, 9]).1.tensors =
          (⟨3, []⟩ : TensorPlaner).tensors ++
            [⟨((⟨3, []⟩ : TensorPlaner).plan_write 4 [9, 9]).2.1 -
                (⟨3, []⟩ : TensorPlaner).free_offset, [9, 9]⟩])) ∧
    ((∀ c ∈ [((4 : Nat), [9, 9]), ((2 : Nat), ([7] : List Nat))], 0 < c.1) ∧
      ((∀ r ∈ (runPlanner ⟨0, []⟩ [(4, [9, 9]), (2, [7])]).2, r.1 ≤ r.2) ∧
        List.Chain' (fun r r2 => r.2 ≤ r2.1)
          (runPlanner ⟨0, []⟩ [(4, [9, 9]), (2, [7])]).2 ∧
        List.Pairwise (fun r r2 => r.2 ≤ r2.1)
          (runPlanner ⟨0, []⟩ [(4, [9, 9]), (2, [7])]).2)) :=
  ⟨⟨by decide, plan_write_contract.1 ⟨3, []⟩ 4 [9, 9] (by decide)⟩,
    ⟨by decide, plan_write_contract.2 [(4, [9, 9]), (2, [7])] (by decide)⟩⟩

/-! ### C9: the Catalog Builder contract -/

theorem lookupCatalog_bumpKey (acc : List (QuantizeKey × QuantizeInfo)) (k k2 : QuantizeKey) :
    lookupCatalog (bumpKey acc k) k2 =
      if k2 = k then
        (match lookupCatalog acc k with
         | none => some ⟨1, .keep⟩
         | some i => some ⟨i.count + 1, i.treatment⟩)
      else lookupCatalog acc k2 := by
  induction acc with
  | nil =>
    by_cases h : k2 = k
    · simp [bumpKey, lookupCatalog, h]
    · have h2 : ¬k = k2 := fun hh => h hh.symm
      simp [bumpKey, lookupCatalog, h, h2]
  | cons p rest ih =>
    obtain ⟨k3, info⟩ := p
    by_cases h3 : k3 = k
    · subst h3
      by_cases h : k3 = k2
      · subst h
        simp [bumpKey, lookupCatalog]
      · have h2 : ¬k2 = k3 := fun hh => h hh.symm
        simp [bumpKey, lookupCatalog, h, h2]
    · by_cases h : k3 = k2
      · subst h
        have h2 : ¬k3 = k := h3
        simp [bumpKey, lookupCatalog, h2, fun hh : k3 = k => h3 hh]
      · simp [bumpKey, lookupCatalog, h3, h, ih]

theorem do_plan_lookup_general (ts : List (List Nat × Dtype × List Nat)) :
    ∀ (acc : List (QuantizeKey × QuantizeInfo)) (k : QuantizeKey),
      lookupCatalog (ts.foldl (fun acc t => bumpKey acc ⟨dtype_str t.2.1, t.2.2⟩) acc) k =
        match lookupCatalog acc k with
        | none =>
          if (ts.map keyOfPlanInput).count k = 0 then none
          else some ⟨(ts.map keyOfPlanInput).count k, .keep⟩
        | some i => some ⟨i.count + (ts.map keyOfPlanInput).count k, i.treatment⟩ := by
  induction ts with
  | nil =>
    intro acc k
    cases h : lookupCatalog acc k <;> simp [h]
  | cons t rest ih =>
    intro acc k
    simp only [List.foldl_cons]
    rw [ih]
    rw [lookupCatalog_bumpKey]
    by_cases hk : k = (⟨dtype_str t.2.1, t.2.2⟩ : QuantizeKey)
    · have hcnt : ((t :: rest).map keyOfPlanInput).count k =
          (rest.map keyOfPlanInput).count k + 1 := by
        simp only [List.map_cons]
        rw [List.count_cons]
        simp [keyOfPlanInput, hk]
      rw [if_pos hk, hcnt]
      rw [show lookupCatalog acc (⟨dtype_str t.2.1, t.2.2⟩ : QuantizeKey) =
            lookupCatalog acc k by rw [hk]]
      cases h : lookupCatalog acc k
      · simp only []
        by_cases h0 : (rest.map keyOfPlanInput).count k = 0 <;> simp [h0, Nat.add_comm]
      · simp [Nat.add_comm, Nat.add_assoc, Nat.add_left_comm]
    · have hk2 : ¬(⟨dtype_str t.2.1, t.2.2⟩ : QuantizeKey) = k := fun hh => hk hh.symm
      have hcnt : ((t :: rest).map keyOfPlanInput).count k =
          (rest.map keyOfPlanInput).count k := by
        simp only [List.map_cons]
        rw [List.count_cons]
        simp [keyOfPlanInput, hk, hk2]
      rw [if_neg hk, hcnt]

theorem bumpKey_treatment_keep (acc : List (QuantizeKey × QuantizeInfo)) (k : QuantizeKey)
    (h : ∀ p ∈ acc, p.2.treatment = QuantizeTreatment.keep) :
    ∀ p ∈ bumpKey acc k, p.2.treatment = QuantizeTreatment.keep := by
  induction acc with
  | nil =>
    intro p hp
    simp [bumpKey] at hp
    simp [hp]
  | cons q rest ih =>
    obtain ⟨k2, info⟩ := q
    intro p hp
    by_cases he : k2 = k
    · simp only [bumpKey, if_pos he, List.mem_cons] at hp
      rcases hp with hp | hp
      · subst hp
        exact h (k2, info) (by simp)
      · exact h p (by simp [hp])
    · simp only [bumpKey, if_neg he, List.mem_cons] at hp
      rcases hp with hp | hp
      · subst hp
        exact h (k2, info) (by simp)
      · exact ih (fun q hq => h q (by simp [hq])) p hp

theorem do_plan_treatment_general (ts : List (List Nat × Dtype × List Nat)) :
    ∀ acc, (∀ p ∈ acc, p.2.treatment = QuantizeTreatment.keep) →
      ∀ p ∈ ts.foldl (fun acc t => bumpKey acc ⟨dtype_str t.2.1, t.2.2⟩) acc,
        p.2.treatment = QuantizeTreatment.keep := by
  induction ts with
  | nil => intro acc h; exact h
  | cons t rest ih =>
    intro acc h
    simp only [List.foldl_cons]
    exact ih _ (bumpKey_treatment_keep acc _ h)

/-- C9: the catalog built by `do_plan` maps each `(dtype, shape)` key present
in the input to its exact multiplicity with treatment `keep` (and absent keys
to nothing); the induced mapping depends only on the multiset of `(dtype,
shape)` keys, hence is identical across runs regardless of tensor names or
iteration order. -/
theorem do_plan_catalog_contract :
    (∀ (ts : List (List Nat × Dtype × List Nat)) (k : QuantizeKey),
      lookupCatalog (do_plan_catalog ts) k =
        if (ts.map keyOfPlanInput).count k = 0 then none
        else some ⟨(ts.map keyOfPlanInput).count k, .keep⟩) ∧
    (∀ ts, ∀ p ∈ do_plan_catalog ts, p.2.treatment = QuantizeTreatment.keep) ∧
    (∀ ts ts2, (ts.map keyOfPlanInput).Perm (ts2.map keyOfPlanInput) →
      ∀ k, lookupCatalog (do_plan_catalog ts) k = lookupCatalog (do_plan_catalog ts2) k) := by
  have hmain : ∀ (ts : List (List Nat × Dtype × List Nat)) (k : QuantizeKey),
      lookupCatalog (do_plan_catalog ts) k =
        if (ts.map keyOfPlanInput).count k = 0 then none
        else some ⟨(ts.map keyOfPlanInput).count k, .keep⟩ := by
    intro ts k
    rw [show do_plan_catalog ts =
          ts.foldl (fun acc t => bumpKey acc ⟨dtype_str t.2.1, t.2.2⟩) [] from rfl]
    rw [do_plan_lookup_general ts [] k]
    simp [lookupCatalog]
  refine ⟨hmain, ?_, ?_⟩
  · intro ts
    exact do_plan_treatment_general ts [] (by simp)
  · intro ts ts2 hperm k
    rw [hmain, hmain, hperm.count_eq]

theorem do_plan_catalog_contract_witness :
    (([([97], Dtype.F32, [2]), ([98], Dtype.F16, [3]),
        ([99], Dtype.F32, [2])].map keyOfPlanInput).Perm
      ([([100], Dtype.F32, [2]), ([101], Dtype.F32, [2]),
        ([102], Dtype.F16, [3])].map keyOfPlanInput)) ∧
    (∀ k, lookupCatalog (do_plan_catalog
        [([97], Dtype.F32, [2]), ([98], Dtype.F16, [3]), ([99], Dtype.F32, [2])]) k =
      lookupCatalog (do_plan_catalog
        [([100], Dtype.F32, [2]), ([101], Dtype.F32, [2]), ([102], Dtype.F16, [3])]) k) :=
  ⟨by decide, do_plan_catalog_contract.2.2 _ _ (by decide)⟩

/-! ### C4: fixed output alignments of the quantizing treatments -/

/-- C4 counterexample: `q4_0` and `q4_1` are distinct quantizing treatments but
the Transform Dispatcher attaches the same output alignment 4 to both results,
contradicting "distinct treatments imply distinct fixed alignments". -/
theorem dispatch_alignment_counterexample :
    QuantizeTreatment.q4_0 ≠ QuantizeTreatment.q4_1 ∧
    (dispatch (fun _ _ _ _ => []) .q4_0 .F32 [4] [0, 0, 0, 0]).map (fun r => r.2.1) =
      .ok 4 ∧
    (dispatch (fun _ _ _ _ => []) .q4_1 .F32 [4] [0, 0, 0, 0]).map (fun r => r.2.1) =
      .ok 4 :=
  ⟨by decide, rfl, rfl⟩

theorem quantizeArm_ok_align (quantize : QuantKernel) (t : QuantizeTreatment)
    (od : List Nat) (oa : Nat) (dtype : Dtype) (shape : List Nat) (data : List Nat)
    (d : List Nat) (a : Nat) (bs : List Nat)
    (h : quantizeArm quantize t od oa dtype shape data = .ok (d, a, bs)) : a = oa := by
  unfold quantizeArm at h
  split at h
  · split at h
    · dsimp only at h
      split at h <;> simp at h
    · dsimp only at h
      split at h
      · split at h
        · simp only [Except.ok.injEq, Prod.mk.injEq] at h
          exact h.2.1.symm
        · simp at h
      · simp at h
  · simp at h

/-- C4 (amended): every quantizing treatment's output alignment is a fixed
constant independent of the input tensor (`q4_0`, `q4_1`, `q8_0` give 4;
`q5_0`, `q5_1` give 2); distinct quantizing treatments do not in general have
distinct alignments. -/
theorem dispatch_quant_alignment (quantize : QuantKernel) (t : QuantizeTreatment)
    (dtype : Dtype) (shape : List Nat) (data : List Nat)
    (d : List Nat) (a : Nat) (bs : List Nat)
    (hok : dispatch quantize t dtype shape data = .ok (d, a, bs)) :
    ((t = .q4_0 ∨ t = .q4_1 ∨ t = .q8_0) → a = 4) ∧
    ((t = .q5_0 ∨ t = .q5_1) → a = 2) := by
  constructor
  · intro ht
    rcases ht with h | h | h <;> subst h <;>
      exact quantizeArm_ok_align _ _ _ _ _ _ _ _ _ _ hok
  · intro ht
    rcases ht with h | h <;> subst h <;>
      exact quantizeArm_ok_align _ _ _ _ _ _ _ _ _ _ hok

theorem dispatch_quant_alignment_witness :
    ((QuantizeTreatment.q4_0 = .q4_0 ∨ QuantizeTreatment.q4_0 = .q4_1 ∨
        QuantizeTreatment.q4_0 = .q8_0) → (4 : Nat) = 4) ∧
    ((QuantizeTreatment.q4_0 = .q5_0 ∨ QuantizeTreatment.q4_0 = .q5_1) → (4 : Nat) = 2) :=
  dispatch_quant_alignment (fun _ _ _ _ => []) .q4_0 .F32 [4] [0, 0, 0, 0]
    [113, 52, 95, 48] 4 [] rfl

/-! ### C7: plan lookup misses are fatal -/

theorem quantizeStep_planMiss (quantize : QuantKernel) (plan : QuantizePlan)
    (st : QuantizeState) (t : InputTensor)
    (h : lookupCatalog plan.catalog (keyOfInput t) = none) :
    quantizeStep quantize plan st t = .error (.planMiss (keyOfInput t)) := by
  have h2 : lookupCatalog plan.catalog ⟨dtype_str t.dtype, t.shape⟩ = none := h
  simp [quantizeStep, keyOfInput, h2]

theorem quantizeFold_append (quantize : QuantKernel) (plan : QuantizePlan)
    (l1 l2 : List InputTensor) :
    ∀ st, quantizeFold quantize plan st (l1 ++ l2) =
      match quantizeFold quantize plan st l1 with
      | .error e => .error e
      | .ok st2 => quantizeFold quantize plan st2 l2 := by
  induction l1 with
  | nil => intro st; rfl
  | cons t rest ih =>
    intro st
    simp only [List.cons_append, quantizeFold]
    cases quantizeStep quantize plan st t with
    | error e => rfl
    | ok st2 => exact ih st2

theorem quantizeFold_mem_planMiss (quantize : QuantKernel) (plan : QuantizePlan)
    (ts : List InputTensor) :
    ∀ (st : QuantizeState) (t : InputTensor), t ∈ ts →
      lookupCatalog plan.catalog (keyOfInput t) = none →
      exceptIsOk (quantizeFold quantize plan st ts) = false := by
  induction ts with
  | nil =>
    intro st t hmem
    simp at hmem
  | cons t2 rest ih =>
    intro st t hmem hlook
    rcases List.mem_cons.1 hmem with h | h
    · subst h
      simp only [quantizeFold]
      rw [quantizeStep_planMiss quantize plan st t hlook]
      rfl
    · simp only [quantizeFold]
      cases quantizeStep quantize plan st t2 with
      | error e => rfl
      | ok st2 => exact ih st2 t h hlook

/-- C7 (amended): whenever some input tensor's `(dtype, shape)` key is absent
from the plan's catalog, `do_quantize` fails fatally (no output is produced and
no default treatment is applied); and when every tensor before it processes
successfully, the error is precisely the "treatment of tensor type not
described in plan" error carrying that key.  (An earlier tensor may fail first
with a different fatal error, so the error is not always the plan-miss one.) -/
theorem do_quantize_plan_miss :
    (∀ (quantize : QuantKernel) (plan : QuantizePlan) (ts : List InputTensor)
        (t : InputTensor),
      t ∈ ts → lookupCatalog plan.catalog (keyOfInput t) = none →
      exceptIsOk (do_quantize quantize plan ts) = false) ∧
    (∀ (quantize : QuantKernel) (plan : QuantizePlan) (pre post : List InputTensor)
        (t : InputTensor),
      lookupCatalog plan.catalog (keyOfInput t) = none →
      (∃ st2, quantizeFold quantize plan ⟨initialOut plan, ⟨0, []⟩⟩ pre = .ok st2) →
      do_quantize quantize plan (pre ++ t :: post) = .error (.planMiss (keyOfInput t))) := by
  constructor
  · intro quantize plan ts t hmem hlook
    have hfold := quantizeFold_mem_planMiss quantize plan ts ⟨initialOut plan, ⟨0, []⟩⟩
      t hmem hlook
    simp only [do_quantize]
    cases hf : quantizeFold quantize plan ⟨initialOut plan, ⟨0, []⟩⟩ ts with
    | error e => rfl
    | ok st =>
      rw [hf] at hfold
      simp [exceptIsOk] at hfold
  · intro quantize plan pre post t hlook hpre
    obtain ⟨st2, hpre⟩ := hpre
    simp only [do_quantize]
    rw [quantizeFold_append, hpre]
    simp only [quantizeFold]
    rw [quantizeStep_planMiss quantize plan st2 t hlook]

/-- C7 counterexample: with a plan whose catalog quantizes `(F16, [2])` with
`q4_0` and lacks `(F32, [1])`, the input `[tensor "a" : F16 [2], tensor "b" :
F32 [1]]` makes the conversion fail with the "only F32 tensors can be
quantized" error from the earlier tensor, not the plan-miss error, even though
tensor "b"'s key is absent from the catalog. -/
theorem do_quantize_plan_miss_counterexample :
    lookupCatalog [(⟨dtype_str .F16, [2]⟩, ⟨1, .q4_0⟩)]
      (keyOfInput ⟨[98], .F32, [1], [0, 0, 0, 0]⟩) = none ∧
    (⟨[98], .F32, [1], [0, 0, 0, 0]⟩ : InputTensor) ∈
      [(⟨[97], .F16, [2], [0, 0, 0, 0]⟩ : InputTensor), ⟨[98], .F32, [1], [0, 0, 0, 0]⟩] ∧
    do_quantize (fun _ _ _ _ => []) ⟨none, [(⟨dtype_str .F16, [2]⟩, ⟨1, .q4_0⟩)]⟩
      [⟨[97], .F16, [2], [0, 0, 0, 0]⟩, ⟨[98], .F32, [1], [0, 0, 0, 0]⟩] =
      .error .onlyF32 :=
  ⟨rfl, by decide, rfl⟩

theorem do_quantize_plan_miss_witness :
    ((⟨[98], .F32, [1], []⟩ : InputTensor) ∈ [(⟨[98], .F32, [1], []⟩ : InputTensor)] ∧
      lookupCatalog (⟨none, []⟩ : QuantizePlan).catalog
        (keyOfInput ⟨[98], .F32, [1], []⟩) = none ∧
      exceptIsOk (do_quantize (fun _ _ _ _ => []) ⟨none, []⟩
        [⟨[98], .F32, [1], []⟩]) = false) ∧
    do_quantize (fun _ _ _ _ => []) ⟨none, []⟩
        ([] ++ (⟨[98], .F32, [1], []⟩ : InputTensor) :: []) =
      .error (.planMiss (keyOfInput ⟨[98], .F32, [1], []⟩)) :=
  ⟨⟨by decide, rfl,
      do_quantize_plan_miss.1 (fun _ _ _ _ => []) ⟨none, []⟩
        [⟨[98], .F32, [1], []⟩] ⟨[98], .F32, [1], []⟩ (by decide) rfl⟩,
    do_quantize_plan_miss.2 (fun _ _ _ _ => []) ⟨none, []⟩ [] []
      ⟨[98], .F32, [1], []⟩ rfl ⟨_, rfl⟩⟩

/-! ### Shared lemmas about the Tensor View Extractor loop -/

theorem loadEntry_underscore (slice : List Nat) (go : Nat)
    (acc : List (List Nat × TensorInfo)) (n : List Nat) (j : Json)
    (h : startsUnderscore n = true) : loadEntry slice go acc n j = .ok acc := by
  simp [loadEntry, h]

theorem loadEntry_ok_cases (slice : List Nat) (go : Nat)
    (acc : List (List Nat × TensorInfo)) (n : List Nat) (j : Json)
    (acc2 : List (List Nat × TensorInfo))
    (h : loadEntry slice go acc n j = .ok acc2) :
    (startsUnderscore n = true ∧ acc2 = acc) ∨
      (startsUnderscore n = false ∧ lookupName acc n = none ∧
        ∃ ti s e, acc2 = acc ++ [(n, ti)] ∧
          sliceGet slice (s + go) (e + go) = some ti.data) := by
  unfold loadEntry at h
  split at h
  · rename_i hu
    injection h with h2
    exact Or.inl ⟨by simpa using hu, h2.symm⟩
  · rename_i hu
    right
    refine ⟨by simpa using hu, ?_⟩
    split at h
    · rename_i info
      split at h
      · simp at h
      · rename_i dtype hdt
        split at h
        · simp at h
        · rename_i shape hsh
          split at h
          · simp at h
          · rename_i offs hoff
            split at h
            · simp at h
            · rename_i data hsg
              split at h
              · simp at h
              · rename_i hln
                injection h with h2
                exact ⟨hln, ⟨dtype, shape, data⟩, offs.1, offs.2, h2.symm, hsg⟩
    · simp at h

theorem loadEntries_append (slice : List Nat) (go : Nat)
    (es1 es2 : List (List Nat × Json)) :
    ∀ acc, loadEntries slice go (es1 ++ es2) acc =
      match loadEntries slice go es1 acc with
      | .error e => .error e
      | .ok acc2 => loadEntries slice go es2 acc2 := by
  induction es1 with
  | nil => intro acc; rfl
  | cons entry rest ih =>
    intro acc
    obtain ⟨n, j⟩ := entry
    simp only [List.cons_append, loadEntries]
    cases loadEntry slice go acc n j with
    | error e => rfl
    | ok acc2 => exact ih acc2

theorem loadEntries_filter (slice : List Nat) (go : Nat) (es : List (List Nat × Json)) :
    ∀ acc, loadEntries slice go es acc =
      loadEntries slice go (es.filter (fun e => !startsUnderscore e.1)) acc := by
  induction es with
  | nil => intro acc; rfl
  | cons entry rest ih =>
    intro acc
    obtain ⟨n, j⟩ := entry
    cases h : startsUnderscore n
    · have hf : ((n, j) :: rest).filter (fun e => !startsUnderscore e.1) =
          (n, j) :: rest.filter (fun e => !startsUnderscore e.1) := by
        simp [List.filter_cons, h]
      rw [hf]
      simp only [loadEntries]
      cases loadEntry slice go acc n j with
      | error e => rfl
      | ok acc2 => exact ih acc2
    · have hf : ((n, j) :: rest).filter (fun e => !startsUnderscore e.1) =
          rest.filter (fun e => !startsUnderscore e.1) := by
        simp [List.filter_cons, h]
      rw [hf]
      simp only [loadEntries, loadEntry_underscore slice go acc n j h]
      exact ih acc

theorem loadEntries_ok_sound (slice : List Nat) (go : Nat) (es : List (List Nat × Json)) :
    ∀ acc m, loadEntries slice go es acc = .ok m →
      ∀ p ∈ m, p ∈ acc ∨
        (startsUnderscore p.1 = false ∧
          ∃ s e, sliceGet slice (s + go) (e + go) = some p.2.data) := by
  induction es with
  | nil =>
    intro acc m h p hp
    injection h with h2
    subst h2
    exact Or.inl hp
  | cons entry rest ih =>
    intro acc m h p hp
    obtain ⟨n, j⟩ := entry
    simp only [loadEntries] at h
    cases he : loadEntry slice go acc n j with
    | error e2 =>
      rw [he] at h
      simp at h
    | ok acc2 =>
      rw [he] at h
      rcases ih acc2 m h p hp with hin | hgood
      · rcases loadEntry_ok_cases _ _ _ _ _ _ he with ⟨_, hcase⟩ | ⟨hund, _, ti, s, e2, heq, hsg⟩
        · subst hcase
          exact Or.inl hin
        · subst heq
          rcases List.mem_append.1 hin with h1 | h2
          · exact Or.inl h1
          · have hp2 : p = (n, ti) := by simpa using h2
            subst hp2
            exact Or.inr ⟨hund, s, e2, hsg⟩
      · exact Or.inr hgood

/-! ### C10: underscore-prefixed header keys are skipped -/

/-- C10: entries of the parsed header whose key begins with an underscore are
skipped before any field validation — extraction behaves exactly as if those
entries were absent (so they can never cause an error, however malformed), and
no underscore-prefixed key appears in the returned tensor mapping. -/
theorem load_tensors_underscore_skip :
    (∀ (es : List (List Nat × Json)) (off : Nat) (slice : List Nat)
        (w : WhereTheSliceStarts),
      load_tensors ⟨Json.obj es, off⟩ slice w =
        load_tensors ⟨Json.obj (es.filter (fun e => !startsUnderscore e.1)), off⟩ slice w) ∧
    (∀ (es : List (List Nat × Json)) (off : Nat) (slice : List Nat)
        (w : WhereTheSliceStarts),
      (namesOfResult (load_tensors ⟨Json.obj es, off⟩ slice w)).all
        (fun n => !startsUnderscore n) = true) := by
  constructor
  · intro es off slice w
    cases w <;>
      simp only [load_tensors, globalOffset] <;>
      exact loadEntries_filter _ _ es []
  · intro es off slice w
    cases hres : load_tensors ⟨Json.obj es, off⟩ slice w with
    | error e => simp [namesOfResult]
    | ok m =>
      have hload : loadEntries slice (globalOffset ⟨Json.obj es, off⟩ w) es [] = .ok m := by
        simpa [load_tensors] using hres
      have hsound := loadEntries_ok_sound slice (globalOffset ⟨Json.obj es, off⟩ w) es [] m hload
      simp only [namesOfResult, List.all_eq_true]
      intro x hx
      rcases List.mem_map.1 hx with ⟨p, hp, hpx⟩
      rcases hsound p hp with hin | ⟨hund, _⟩
      · simp at hin
      · subst hpx
        simp [hund]

/-! ### C6: out-of-bounds data offsets -/

/-- C6 (amended): when a tensor entry's fields are valid but its byte range
(after adding the global offset) exceeds the buffer bounds — even by one byte —
and every earlier entry extracted successfully, the extractor fails with
`OffsetsOutOfBounds` carrying that tensor's name and its declared offsets; and
on success every returned view is the bounds-checked slice of the buffer at
some declared range.  When the entry's own fields (or an earlier entry) are
invalid, the earlier check's error surfaces instead of `OffsetsOutOfBounds`. -/
theorem load_tensors_oob :
    (∀ (off : Nat) (slice : List Nat) (w : WhereTheSliceStarts)
        (pre post : List (List Nat × Json)) (n : List Nat)
        (info : List (List Nat × Json)) (dt sh : List Nat) (s e : Nat)
        (acc : List (List Nat × TensorInfo)) (go : Nat),
      go = globalOffset ⟨Json.obj (pre ++ (n, Json.obj info) :: post), off⟩ w →
      loadEntries slice go pre [] = .ok acc →
      startsUnderscore n = false →
      (objGet info key_dtype).bind deserializeString = some dt →
      (objGet info key_shape).bind deserializeNatList = some sh →
      (objGet info key_data_offsets).bind deserializeNatPair = some (s, e) →
      sliceGet slice (s + go) (e + go) = none →
      load_tensors ⟨Json.obj (pre ++ (n, Json.obj info) :: post), off⟩ slice w =
        .error (.OffsetsOutOfBounds n (s, e))) ∧
    (∀ (es : List (List Nat × Json)) (off : Nat) (slice : List Nat)
        (w : WhereTheSliceStarts) (m : List (List Nat × TensorInfo)),
      load_tensors ⟨Json.obj es, off⟩ slice w = .ok m →
      ∀ p ∈ m, ∃ s e,
        sliceGet slice (s + globalOffset ⟨Json.obj es, off⟩ w)
          (e + globalOffset ⟨Json.obj es, off⟩ w) = some p.2.data) := by
  constructor
  · intro off slice w pre post n info dt sh s e acc go hgo hpre hund hdt hsh hoff hsg
    have hstep : loadEntry slice go acc n (Json.obj info) =
        .error (.OffsetsOutOfBounds n (s, e)) := by
      simp [loadEntry, hund, hdt, hsh, hoff, hsg]
    subst hgo
    simp only [load_tensors]
    rw [loadEntries_append, hpre]
    simp only [loadEntries]
    rw [hstep]
  · intro es off slice w m hres p hp
    have hload : loadEntries slice (globalOffset ⟨Json.obj es, off⟩ w) es [] = .ok m := by
      simpa [load_tensors] using hres
    rcases loadEntries_ok_sound slice (globalOffset ⟨Json.obj es, off⟩ w) es [] m hload
        p hp with hin | ⟨_, hgood⟩
    · simp at hin
    · exact hgood

/-- C6 counterexample: a single entry whose declared byte range `[0, 100)` far
exceeds the empty buffer but whose `dtype` field is invalid fails with
`InvalidHeader`, not `OffsetsOutOfBounds` — the field checks run first. -/
theorem load_tensors_oob_counterexample :
    sliceGet [] (0 + 0) (100 + 0) = none ∧
    load_tensors ⟨Json.obj [([97], Json.obj [(key_dtype, Json.num 5),
        (key_shape, Json.arr [Json.num 1]),
        (key_data_offsets, Json.arr [Json.num 0, Json.num 100])])], 8⟩ []
      .AfterHeader = .error (.InvalidHeader (.noValidDtype [97])) :=
  ⟨rfl, rfl⟩

/-- The header entry fields used by the C6 witness: valid fields with byte
range `[0, 1)`, one byte past the end of an empty buffer. -/
def oobTensorInfo : List (List Nat × Json) :=
  [(key_dtype, Json.str [70, 51, 50]), (key_shape, Json.arr [Json.num 1]),
    (key_data_offsets, Json.arr [Json.num 0, Json.num 1])]

theorem load_tensors_oob_witness :
    sliceGet [] (0 + 0) (1 + 0) = none ∧
    load_tensors ⟨Json.obj ([] ++ ([97], Json.obj oobTensorInfo) :: []), 8⟩ []
        .AfterHeader =
      .error (.OffsetsOutOfBounds [97] (0, 1)) :=
  ⟨rfl,
    load_tensors_oob.1 8 [] .AfterHeader [] [] [97] oobTensorInfo [70, 51, 50] [1] 0 1 [] 0
      rfl rfl rfl rfl rfl rfl rfl⟩

/-! ### C1: the serialize/re-parse round trip -/

/-- C1: the round trip fails on the code as written.  The Container Serializer
emits each tensor's offsets under the header key `"offsets"` (main.rs line
304) while the Tensor View Extractor requires `"data_offsets"` (lib.rs line
101), so re-parsing the container serialized from a single keep-treated `F32`
tensor named "t" fails with `InvalidHeader` ("no valid data_offsets") instead
of reproducing the tensor. -/
theorem do_quantize_reparse_fails :
    (do_quantize (fun _ _ _ _ => [])
        ⟨none, [(⟨dtype_str .F32, [1]⟩, ⟨1, .keep⟩)]⟩
        [⟨[116], .F32, [1], [0, 0, 0, 0]⟩]).map reparse =
      .ok (some (.error (.InvalidHeader (.noValidDataOffsets [116])))) := rfl

/-! ### C3: duplicate tensor names in a serialized header -/

/-- A well-formed tensor entry value: dtype "F32", shape `[1]`, data offsets
`[0, 0]`. -/
def validTensorEntry : Json :=
  Json.obj [(key_dtype, Json.str [70, 51, 50]), (key_shape, Json.arr [Json.num 1]),
    (key_data_offsets, Json.arr [Json.num 0, Json.num 0])]

/-- A second well-formed tensor entry value with data offsets `[1, 2]`, so
that which of two same-named entries survives duplicate-key collapse is
observable in the extracted bytes. -/
def dupSecondEntry : Json :=
  Json.obj [(key_dtype, Json.str [70, 51, 50]), (key_shape, Json.arr [Json.num 1]),
    (key_data_offsets, Json.arr [Json.num 1, Json.num 2])]

/-- A header text whose JSON object literally contains two members both named
"a": first `validTensorEntry`, then `dupSecondEntry`.  Duplicate keys can
exist only in serialized text — a parsed map cannot hold them. -/
def dupHeaderText : List Nat :=
  [123] ++ serializeStringBytes [97] ++ [58] ++ jsonSerialize validTensorEntry ++ [44]
    ++ serializeStringBytes [97] ++ [58] ++ jsonSerialize dupSecondEntry ++ [125]

/-- The C3 failing input: length prefix, the duplicate-name header text, and
two payload bytes (values 10 and 20) at offsets 0 and 1 of the data region. -/
def dupFile : List Nat := u64le dupHeaderText.length ++ dupHeaderText ++ [10, 20]

/-- C3: a container file whose header text names the tensor "a" twice is
silently accepted.  The JSON parse collapses duplicate object keys before the
Tensor View Extractor runs (last occurrence wins, as with `serde_json::Map`),
so the `DuplicateTensorName` check of `load_tensors` (lib.rs lines 112-118)
is unreachable from any file: re-parsing `dupFile` succeeds and returns the
second entry's view (the byte `[20]` at offsets `[1, 2]`), with no error. -/
theorem load_tensors_duplicate_collapsed :
    jsonParse dupHeaderText = some (Json.obj [([97], dupSecondEntry)], []) ∧
    reparse dupFile = some (.ok [([97], ⟨[70, 51, 50], [1], [20]⟩)]) :=
  ⟨rfl, rfl⟩
